import Mathlib

/-!
Shallow embedding of the `neoercities` crate's site-diff engine
(`src/site_info.rs` together with the error type of `src/lib.rs`).

The HTTP gateway, the local filesystem and the external date parser
(`chrono::DateTime::parse_from_rfc2822`) are out-of-scope collaborators;
they are modelled as explicit inputs:
  * the gateway's `list_all` response, composed with `serde_json::from_str`,
    becomes a value of type `Except NeocitiesError (Option JValue)`
    (`Except.error e` = HTTP failure, `.ok none` = body is not valid JSON,
    `.ok (some v)` = body parsed to the JSON value `v`);
  * the local read `std::fs::read` becomes an `Option (List Nat)`
    (`none` = I/O failure, `some bytes` = the file's bytes);
  * `parse_from_rfc2822 ∘ with_timezone(&Utc)` becomes a parameter
    `p2822 : String → Option Int` (an instant in seconds; `with_timezone`
    does not change the instant).
Rust panics (`.unwrap()` on `None`/`Err`) are a distinct outcome,
`Outcome.panicked`, separate from returned errors.
Bytes (`u8`) are natural numbers; every place the code depends on the
8-bit width takes the value modulo 256.
-/

namespace Neoercities

/-- The JSON value tree, mirroring `serde_json::Value`.  Numbers are
integers (the manifest schema only uses non-negative integers; `as_u64`
fails on anything not representable as a `u64`). -/
inductive JValue where
  | null
  | bool (b : Bool)
  | num (n : Int)
  | str (s : String)
  | arr (elems : List JValue)
  | obj (fields : List (String × JValue))

/-- `Value::get(key)`: field lookup on an object, `None` on any other variant. -/
def JValue.get (j : JValue) (key : String) : Option JValue :=
  match j with
  | .obj fields => fields.lookup key
  | _ => none

/-- `Value::as_str`. -/
def JValue.as_str : JValue → Option String
  | .str s => some s
  | _ => none

/-- `Value::as_bool`. -/
def JValue.as_bool : JValue → Option Bool
  | .bool b => some b
  | _ => none

/-- `Value::as_u64`: the number if it is representable as an unsigned
64-bit integer. -/
def JValue.as_u64 : JValue → Option Nat
  | .num n => if 0 ≤ n ∧ n < 2 ^ 64 then some n.toNat else none
  | _ => none

/-- `Value::as_array`. -/
def JValue.as_array : JValue → Option (List JValue)
  | .arr elems => some elems
  | _ => none

/-- The crate's error enum (`NeocitiesError` in `lib.rs`); payloads of the
first two variants (the underlying `reqwest`/`io` errors) are dropped. -/
inductive NeocitiesError where
  | RequestError
  | FileError
  | AuthError
  | ListParseError
deriving DecidableEq, Repr

/-- Result of running a fallible Rust expression: a value, a returned
error, or a panic (an `.unwrap()` that fired). -/
inductive Outcome (α : Type) where
  | ok (a : α)
  | err (e : NeocitiesError)
  | panicked
deriving DecidableEq, Repr

/-- Sequencing of fallible steps (the `?` operator): errors and panics
short-circuit. -/
def Outcome.bind {α β : Type} : Outcome α → (α → Outcome β) → Outcome β
  | .ok a, f => f a
  | .err e, _ => .err e
  | .panicked, _ => .panicked

/-- `opt.ok_or(e)?`. -/
def okOr {α : Type} (x : Option α) (e : NeocitiesError) : Outcome α :=
  match x with
  | some v => .ok v
  | none => .err e

/-- `.unwrap()` on an `Option`/`Result`: panics on the empty case. -/
def unwrapOpt {α : Type} : Option α → Outcome α
  | some v => .ok v
  | none => .panicked

/-! ## SHA-1 (the `sha1` crate as used by `hash_of_bytes`) -/

/-- 2^32, the word modulus. -/
def w32 : Nat := 4294967296

/-- Rotate a 32-bit word left by `n`. -/
def rotl (n x : Nat) : Nat := ((x <<< n) ||| (x >>> (32 - n))) % w32

/-- Big-endian bytes of a 32-bit word. -/
def be32 (w : Nat) : List Nat :=
  [(w >>> 24) % 256, (w >>> 16) % 256, (w >>> 8) % 256, w % 256]

/-- Big-endian bytes of a 64-bit length field. -/
def be64 (n : Nat) : List Nat :=
  [(n >>> 56) % 256, (n >>> 48) % 256, (n >>> 40) % 256, (n >>> 32) % 256,
   (n >>> 24) % 256, (n >>> 16) % 256, (n >>> 8) % 256, n % 256]

/-- SHA-1 padding: append `0x80`, zero bytes to 56 mod 64, then the
bit length as 8 big-endian bytes. -/
def sha1pad (msg : List Nat) : List Nat :=
  let len := msg.length
  msg ++ [128] ++ List.replicate ((119 - len % 64) % 64) 0 ++ be64 (len * 8)

/-- Pack bytes, four at a time, into big-endian 32-bit words. -/
def toWords : List Nat → List Nat
  | a :: b :: c :: d :: rest =>
    (((a % 256) <<< 24) ||| ((b % 256) <<< 16) ||| ((c % 256) <<< 8) ||| (d % 256))
      :: toWords rest
  | _ => []

/-- Extend the 16 message words to the 80-word schedule. -/
def extendW : Nat → Array Nat → Array Nat
  | 0, ws => ws
  | n + 1, ws =>
    extendW n (ws.push (rotl 1
      ((ws.getD (ws.size - 3) 0) ^^^ (ws.getD (ws.size - 8) 0) ^^^
       (ws.getD (ws.size - 14) 0) ^^^ (ws.getD (ws.size - 16) 0))))

/-- The round function `f` of SHA-1. -/
def sha1f (i b c d : Nat) : Nat :=
  if i < 20 then (b &&& c) ||| ((b ^^^ (w32 - 1)) &&& d)
  else if i < 40 then b ^^^ c ^^^ d
  else if i < 60 then (b &&& c) ||| (b &&& d) ||| (c &&& d)
  else b ^^^ c ^^^ d

/-- The round constant `k` of SHA-1. -/
def sha1k (i : Nat) : Nat :=
  if i < 20 then 1518500249
  else if i < 40 then 1859775393
  else if i < 60 then 2400959708
  else 3395469782

/-- The five-word SHA-1 state. -/
abbrev Sha1State := Nat × Nat × Nat × Nat × Nat

/-- One SHA-1 round. -/
def sha1round (w : Array Nat) (st : Sha1State) (i : Nat) : Sha1State :=
  let (a, b, c, d, e) := st
  ((rotl 5 a + sha1f i b c d + e + sha1k i + w.getD i 0) % w32,
   a, rotl 30 b, c, d)

/-- Compress one 64-byte block into the state. -/
def processBlock (st : Sha1State) (block : List Nat) : Sha1State :=
  let w := extendW 64 (toWords block).toArray
  let (h0, h1, h2, h3, h4) := st
  let (a, b, c, d, e) := (List.range 80).foldl (sha1round w) st
  ((h0 + a) % w32, (h1 + b) % w32, (h2 + c) % w32, (h3 + d) % w32, (h4 + e) % w32)

/-- Split into 64-byte blocks; the fuel (the list length) bounds the
recursion depth so the definition is structural and kernel-computable. -/
def chunksAux : Nat → List Nat → List (List Nat)
  | 0, _ => []
  | _, [] => []
  | fuel + 1, x :: xs => ((x :: xs).take 64) :: chunksAux fuel ((x :: xs).drop 64)

/-- Split a padded message into 64-byte blocks. -/
def chunks64 (l : List Nat) : List (List Nat) := chunksAux l.length l

/-- SHA-1 initial state. -/
def sha1init : Sha1State := (1732584193, 4023233417, 2562383102, 271733878, 3285377520)

/-- The 20 digest bytes of a final state. -/
def digestOf : Sha1State → List Nat
  | (h0, h1, h2, h3, h4) => be32 h0 ++ be32 h1 ++ be32 h2 ++ be32 h3 ++ be32 h4

/-- `Sha1::digest`: the 20-byte SHA-1 digest of a byte sequence. -/
def sha1digest (bytes : List Nat) : List Nat :=
  digestOf ((chunks64 (sha1pad bytes)).foldl processBlock sha1init)

/-- One lowercase hexadecimal digit. -/
def hexDigit (n : Nat) : Char :=
  if n < 10 then Char.ofNat (48 + n) else Char.ofNat (87 + n)

/-- `format!("\x7b:02x\x7d", b)` for a byte `b`: two zero-padded lowercase
hex digits. -/
def toHex2 (b : Nat) : String :=
  String.mk [hexDigit (b / 16), hexDigit (b % 16)]

/-- `hash_of_bytes`: the SHA-1 digest rendered byte-by-byte as lowercase
hex, exactly as the Rust loop pushes `format!("\x7b:02x\x7d", b)` for each
digest byte. -/
def hash_of_bytes (bytes : List Nat) : String :=
  (sha1digest bytes).foldl (fun ret b => ret ++ toHex2 b) ""

/-- `hash_of_local`: hash the bytes read from a local file; the read
result is passed in (`none` models a failed `std::fs::read`). -/
def hash_of_local (readResult : Option (List Nat)) : Option String :=
  readResult.map hash_of_bytes

/-! ## Manifest model (`File`, `Dir`, `SiteItem`) -/

/-- A file entry of the manifest. -/
structure File where
  path : String
  modified : Int
  sha1_hash : String
  size : Nat
deriving DecidableEq, Repr

/-- A directory entry of the manifest. -/
structure Dir where
  path : String
  modified : Int
deriving DecidableEq, Repr

/-- `File::from_json`, parameterised by the external RFC 2822 date parser
`p2822`.  Field order follows the Rust struct literal: `path`,
`modified` (whose date `.unwrap()` panics on an unparsable date),
`sha1_hash`, `size`. -/
def File.from_json (p2822 : String → Option Int) (j : JValue) : Outcome File :=
  (okOr (j.get "path") .ListParseError).bind fun pv =>
  (okOr pv.as_str .ListParseError).bind fun pathStr =>
  (okOr (j.get "updated_at") .ListParseError).bind fun uv =>
  (okOr uv.as_str .ListParseError).bind fun updStr =>
  (unwrapOpt (p2822 updStr)).bind fun modified =>
  (okOr (j.get "sha1_hash") .ListParseError).bind fun sv =>
  (okOr sv.as_str .ListParseError).bind fun shaStr =>
  (okOr (j.get "size") .ListParseError).bind fun sizev =>
  (okOr sizev.as_u64 .ListParseError).bind fun size =>
  .ok { path := "/" ++ pathStr, modified := modified, sha1_hash := shaStr, size := size }

/-- `Dir::from_json`: as the file parser but with only `path` and the
date. -/
def Dir.from_json (p2822 : String → Option Int) (j : JValue) : Outcome Dir :=
  (okOr (j.get "path") .ListParseError).bind fun pv =>
  (okOr pv.as_str .ListParseError).bind fun pathStr =>
  (okOr (j.get "updated_at") .ListParseError).bind fun uv =>
  (okOr uv.as_str .ListParseError).bind fun updStr =>
  (unwrapOpt (p2822 updStr)).bind fun modified =>
  .ok { path := "/" ++ pathStr, modified := modified }

/-- An item of the manifest: file or directory. -/
inductive SiteItem where
  | File (f : File)
  | Dir (d : Dir)
deriving DecidableEq, Repr

/-- `SiteItem::get_path`. -/
def SiteItem.get_path : SiteItem → String
  | .Dir d => d.path
  | .File f => f.path

/-- `SiteItem::from_json`: dispatch on the `is_directory` discriminator. -/
def SiteItem.from_json (p2822 : String → Option Int) (j : JValue) : Outcome SiteItem :=
  (okOr (j.get "is_directory") .ListParseError).bind fun dv =>
  (okOr dv.as_bool .ListParseError).bind fun isDir =>
  if isDir then (Dir.from_json p2822 j).bind fun d => .ok (.Dir d)
  else (File.from_json p2822 j).bind fun f => .ok (.File f)

/-! ## Site catalog (`SiteInfo`)

The catalog state is its `items` list; the owned client is the
out-of-scope gateway, whose `list_all` response is an explicit input. -/

/-- `SiteInfo::get_item`: linear scan for the first item whose path
equals `path` exactly. -/
def get_item (items : List SiteItem) (path : String) : Option SiteItem :=
  match items with
  | [] => none
  | i :: rest => if i.get_path = path then some i else get_item rest path

/-- `SiteInfo::get_file`. -/
def get_file (items : List SiteItem) (path : String) : Option File :=
  match get_item items path with
  | some (.File f) => some f
  | _ => none

/-- `SiteInfo::get_dir`. -/
def get_dir (items : List SiteItem) (path : String) : Option Dir :=
  match get_item items path with
  | some (.Dir d) => some d
  | _ => none

/-- `SiteInfo::bytes_changed`: hash the bytes and compare with the stored
hash string; `true` when the remote file is absent. -/
def bytes_changed (items : List SiteItem) (bytes : List Nat) (remote_path : String) : Bool :=
  match get_file items remote_path with
  | some f => hash_of_bytes bytes != f.sha1_hash
  | none => true

/-- `SiteInfo::file_changed`: as `bytes_changed` but hashing a local
file; the local read happens only in the `Some` branch, and a failed
read surfaces as `NeocitiesError::FileError` through the `?` operator. -/
def file_changed (items : List SiteItem) (readResult : Option (List Nat))
    (remote_path : String) : Except NeocitiesError Bool :=
  match get_file items remote_path with
  | some f =>
    match hash_of_local readResult with
    | some h => .ok (h != f.sha1_hash)
    | none => .error .FileError
  | none => .ok true

/-- The loop body of `refresh`: parse each entry of the `files` array,
stopping at the first failure. -/
def parse_entries (p2822 : String → Option Int) : List JValue → Outcome (List SiteItem)
  | [] => .ok []
  | j :: rest =>
    (SiteItem.from_json p2822 j).bind fun i =>
    (parse_entries p2822 rest).bind fun is =>
    .ok (i :: is)

/-- How a `refresh` call ends: success, a returned error, or a panic. -/
inductive RefreshOutcome where
  | ok
  | err (e : NeocitiesError)
  | panicked
deriving DecidableEq, Repr

/-- `SiteInfo::refresh`.  `resp` is `self.client.list_all()` composed
with `serde_json::from_str` (see the module comment).  The result pairs
the call's outcome with the value of `self.items` afterwards; the
assignment `self.items = items` runs only after the whole loop
succeeds.  The three `.unwrap()` calls of the source (body not JSON, no
`files` key, `files` not an array) are panics. -/
def refresh (p2822 : String → Option Int) (items : List SiteItem)
    (resp : Except NeocitiesError (Option JValue)) : RefreshOutcome × List SiteItem :=
  match resp with
  | .error e => (.err e, items)
  | .ok none => (.panicked, items)
  | .ok (some list) =>
    match list.get "files" with
    | none => (.panicked, items)
    | some files =>
      match files.as_array with
      | none => (.panicked, items)
      | some arr =>
        match parse_entries p2822 arr with
        | .ok newItems => (.ok, newItems)
        | .err e => (.err e, items)
        | .panicked => (.panicked, items)

/-- `SiteInfo::new`: start from an empty item list and `refresh` once. -/
def new (p2822 : String → Option Int)
    (resp : Except NeocitiesError (Option JValue)) : Outcome (List SiteItem) :=
  match refresh p2822 [] resp with
  | (.ok, items) => .ok items
  | (.err e, _) => .err e
  | (.panicked, _) => .panicked

end Neoercities

namespace Neoercities

/-! ## Inversion lemmas for the outcome monad and the JSON accessors -/

@[simp]
theorem Outcome.bind_eq_ok {α β : Type} {x : Outcome α} {f : α → Outcome β} {b : β} :
    x.bind f = .ok b ↔ ∃ a, x = .ok a ∧ f a = .ok b := by
  cases x <;> simp [Outcome.bind]

@[simp]
theorem Outcome.bind_eq_err {α β : Type} {x : Outcome α} {f : α → Outcome β} {e : NeocitiesError} :
    x.bind f = .err e ↔ x = .err e ∨ ∃ a, x = .ok a ∧ f a = .err e := by
  cases x <;> simp [Outcome.bind]

@[simp]
theorem Outcome.bind_eq_panicked {α β : Type} {x : Outcome α} {f : α → Outcome β} :
    x.bind f = .panicked ↔ x = .panicked ∨ ∃ a, x = .ok a ∧ f a = .panicked := by
  cases x <;> simp [Outcome.bind]

@[simp]
theorem okOr_eq_ok {α : Type} {o : Option α} {e : NeocitiesError} {a : α} :
    okOr o e = .ok a ↔ o = some a := by
  cases o <;> simp [okOr]

@[simp]
theorem okOr_eq_err {α : Type} {o : Option α} {e e2 : NeocitiesError} :
    okOr o e = .err e2 ↔ o = none ∧ e = e2 := by
  cases o <;> simp [okOr]

@[simp]
theorem okOr_eq_panicked {α : Type} {o : Option α} {e : NeocitiesError} :
    okOr o e = .panicked ↔ False := by
  cases o <;> simp [okOr]

@[simp]
theorem unwrapOpt_eq_ok {α : Type} {o : Option α} {a : α} :
    unwrapOpt o = .ok a ↔ o = some a := by
  cases o <;> simp [unwrapOpt]

@[simp]
theorem unwrapOpt_eq_err {α : Type} {o : Option α} {e : NeocitiesError} :
    unwrapOpt o = .err e ↔ False := by
  cases o <;> simp [unwrapOpt]

@[simp]
theorem unwrapOpt_eq_panicked {α : Type} {o : Option α} :
    unwrapOpt o = .panicked ↔ o = none := by
  cases o <;> simp [unwrapOpt]

@[simp]
theorem as_str_eq_some {v : JValue} {s : String} :
    v.as_str = some s ↔ v = .str s := by
  cases v <;> simp [JValue.as_str]

@[simp]
theorem as_bool_eq_some {v : JValue} {b : Bool} :
    v.as_bool = some b ↔ v = .bool b := by
  cases v <;> simp [JValue.as_bool]

@[simp]
theorem as_array_eq_some {v : JValue} {l : List JValue} :
    v.as_array = some l ↔ v = .arr l := by
  cases v <;> simp [JValue.as_array]

@[simp]
theorem as_u64_eq_some {v : JValue} {k : Nat} :
    v.as_u64 = some k ↔ ∃ n : Int, v = .num n ∧ 0 ≤ n ∧ n < 2 ^ 64 ∧ n.toNat = k := by
  cases v <;> simp [JValue.as_u64]
  exact and_assoc

end Neoercities

namespace Neoercities

/-! ## Claim theorems -/

/-- C1: `bytes_changed(B, p)` returns `false` if and only if the catalog
has an entry at `p`, that entry is the `File` variant, and the computed
hash of `B` equals the entry's stored `sha1_hash`; in every other case
(no entry, a `Dir` entry, or differing hashes) it returns `true`. -/
theorem bytes_changed_false_iff (items : List SiteItem) (B : List Nat) (p : String) :
    bytes_changed items B p = false ↔
      ∃ f, get_item items p = some (SiteItem.File f) ∧ hash_of_bytes B = f.sha1_hash := by
  rcases h : get_item items p with _ | it
  · simp [bytes_changed, get_file, h]
  · cases it <;> simp [bytes_changed, get_file, h, bne_eq_false_iff_eq]

/-- C2: on a record whose `is_directory`, `path` and `updated_at` fields
are present with the right JSON types but whose `updated_at` string the
RFC 2822 parser rejects, `SiteItem::from_json` (either variant) panics
(the `.unwrap()` on `parse_from_rfc2822`) instead of returning
`ListParseError` — the code contradicts the spec and the doc comments of
`new`/`refresh`. -/
theorem from_json_invalid_date_panics (p2822 : String → Option Int) (j : JValue)
    (b : Bool) (s u : String)
    (hd : j.get "is_directory" = some (.bool b))
    (hp : j.get "path" = some (.str s))
    (hu : j.get "updated_at" = some (.str u))
    (hdate : p2822 u = none) :
    SiteItem.from_json p2822 j = .panicked := by
  cases b <;>
    simp [SiteItem.from_json, File.from_json, Dir.from_json, hd, hp, hu, hdate,
      okOr, unwrapOpt, JValue.as_bool, JValue.as_str, Outcome.bind]

/-- Witness for C2 at a concrete record with an unparsable date. -/
theorem from_json_invalid_date_panics_witness :
    SiteItem.from_json (fun _ => none)
      (JValue.obj [("is_directory", JValue.bool false), ("path", JValue.str "index.html"),
        ("updated_at", JValue.str "not a date"),
        ("sha1_hash", JValue.str "da39a3ee5e6b4b0d3255bfef95601890afd80709"),
        ("size", JValue.num 0)]) = .panicked :=
  from_json_invalid_date_panics (fun _ => none) _ false "index.html" "not a date"
    rfl rfl rfl rfl

/-- C3: `refresh` is not total on malformed list responses: a body that
is not valid JSON, a JSON body with no `files` key, and a non-array
`files` value all make it panic (three `.unwrap()` calls) instead of
returning `ListParseError` as its doc comment promises. -/
theorem refresh_malformed_body_panics (p2822 : String → Option Int) (items : List SiteItem) :
    (refresh p2822 items (.ok none)).1 = .panicked ∧
    (∀ v : JValue, v.get "files" = none →
      (refresh p2822 items (.ok (some v))).1 = .panicked) ∧
    (∀ v fv, v.get "files" = some fv → fv.as_array = none →
      (refresh p2822 items (.ok (some v))).1 = .panicked) := by
  refine ⟨rfl, fun v hv => ?_, fun v fv hv ha => ?_⟩
  · unfold refresh; simp [hv]
  · unfold refresh; simp [hv, ha]

/-- Witness for C3: a JSON object body with no `files` key panics. -/
theorem refresh_malformed_body_panics_witness :
    (refresh (fun _ => none) [] (.ok (some (JValue.obj [])))).1 = .panicked :=
  (refresh_malformed_body_panics (fun _ => none) []).2.1 (JValue.obj []) rfl

/-- C4: whenever `refresh` returns an error — a propagated `list_all`
failure or a parse error on some record — the stored item list is exactly
what it was before the call, so every lookup gives the same result as
before; the new list is installed only on full success. -/
theorem refresh_err_preserves_items (p2822 : String → Option Int)
    (items : List SiteItem) (resp : Except NeocitiesError (Option JValue))
    (e : NeocitiesError) (h : (refresh p2822 items resp).1 = .err e) :
    (refresh p2822 items resp).2 = items ∧
    ∀ p, get_item (refresh p2822 items resp).2 p = get_item items p := by
  suffices h2 : (refresh p2822 items resp).2 = items by
    exact ⟨h2, fun p => by rw [h2]⟩
  rcases resp with e2 | ov
  · rfl
  · rcases ov with _ | v
    · rfl
    · rcases hf : v.get "files" with _ | fv
      · unfold refresh; simp [hf]
      · rcases ha : fv.as_array with _ | arr
        · unfold refresh; simp [hf, ha]
        · rcases hp : parse_entries p2822 arr with its | e2 | _
          · exfalso; unfold refresh at h; simp [hf, ha, hp] at h
          · unfold refresh; simp [hf, ha, hp]
          · unfold refresh; simp [hf, ha, hp]

/-- Witness for C4 at a concrete network failure. -/
theorem refresh_err_preserves_items_witness :
    (refresh (fun _ => none) [] (.error NeocitiesError.RequestError)).2 = [] :=
  (refresh_err_preserves_items (fun _ => none) [] (.error NeocitiesError.RequestError)
    NeocitiesError.RequestError rfl).1

/-- C8, counterexample: with no remote entry at the path, `file_changed`
returns `Ok(true)` without ever reading the local file, so a failing
local read does not surface as an I/O error, contradicting the claim
that a failed read always returns the error. -/
theorem file_changed_ioerror_cex :
    file_changed [] none "/x" = .ok true ∧
    file_changed [] none "/x" ≠ .error NeocitiesError.FileError :=
  ⟨rfl, fun h => nomatch h⟩

/-- C8, amended: when the read succeeds with bytes `B` the result is
exactly `Ok (bytes_changed B p)`; when the read would fail, the I/O
error is returned only if the remote `File` entry exists — with the
remote entry absent the function returns `Ok(true)` without reading. -/
theorem file_changed_amended (items : List SiteItem) (rr : Option (List Nat)) (p : String) :
    (∀ B, rr = some B → file_changed items rr p = .ok (bytes_changed items B p)) ∧
    (rr = none →
      (∀ f, get_file items p = some f →
        file_changed items rr p = .error NeocitiesError.FileError) ∧
      (get_file items p = none → file_changed items rr p = .ok true)) := by
  constructor
  · rintro B rfl
    rcases hf : get_file items p with _ | f
    · simp [file_changed, bytes_changed, hf]
    · simp [file_changed, bytes_changed, hash_of_local, hf]
  · rintro rfl
    constructor
    · intro f hf; simp [file_changed, hash_of_local, hf]
    · intro hf; simp [file_changed, hf]

/-- Witness for the amended C8 at a concrete successful read. -/
theorem file_changed_amended_witness :
    file_changed [] (some []) "/x" = .ok (bytes_changed [] [] "/x") :=
  (file_changed_amended [] (some []) "/x").1 [] rfl

end Neoercities

namespace Neoercities

/-- Any error `SiteItem::from_json` returns is `ListParseError`. -/
lemma from_json_err_eq (p2822 : String → Option Int) (j : JValue) (e : NeocitiesError)
    (h : SiteItem.from_json p2822 j = .err e) : e = .ListParseError := by
  simp [SiteItem.from_json, File.from_json, Dir.from_json] at h
  tauto

/-- `SiteItem::from_json` panics only in one configuration: the
discriminator and `path` are well-typed and `updated_at` is a string the
date parser rejects. -/
lemma from_json_panicked_fields (p2822 : String → Option Int) (j : JValue)
    (h : SiteItem.from_json p2822 j = .panicked) :
    ∃ (b : Bool) (s u : String),
      j.get "is_directory" = some (.bool b) ∧ j.get "path" = some (.str s) ∧
      j.get "updated_at" = some (.str u) ∧ p2822 u = none := by
  simp [SiteItem.from_json, File.from_json, Dir.from_json] at h
  obtain ⟨dv, hdv, h⟩ := h
  rcases h with ⟨rfl, pv, hp, ⟨s, rfl⟩, uv, hu, u, rfl, hnone⟩ |
    ⟨rfl, pv, hp, ⟨s, rfl⟩, uv, hu, u, rfl, hnone⟩
  · exact ⟨false, s, u, hdv, hp, hu, hnone⟩
  · exact ⟨true, s, u, hdv, hp, hu, hnone⟩

/-- Full inversion of a successful parse: all required fields were
present with the right types, and the produced entry's fields are the
parsed values (the stored path is the raw path with `/` prepended). -/
lemma from_json_ok_fields (p2822 : String → Option Int) (j : JValue) (it : SiteItem)
    (h : SiteItem.from_json p2822 j = .ok it) :
    ∃ (b : Bool) (s u : String) (m : Int),
      j.get "is_directory" = some (.bool b) ∧
      j.get "path" = some (.str s) ∧
      j.get "updated_at" = some (.str u) ∧
      p2822 u = some m ∧
      it.get_path = "/" ++ s ∧
      (b = false → ∃ (sha : String) (n : Int),
        j.get "sha1_hash" = some (.str sha) ∧ j.get "size" = some (.num n) ∧
        0 ≤ n ∧ n < 2 ^ 64 ∧
        it = .File { path := "/" ++ s, modified := m, sha1_hash := sha, size := n.toNat }) ∧
      (b = true → it = .Dir { path := "/" ++ s, modified := m }) := by
  simp [SiteItem.from_json, File.from_json, Dir.from_json] at h
  obtain ⟨dv, hdv, h⟩ := h
  rcases h with ⟨rfl, f, ⟨pv, hp, s, rfl, uv, hu, u, rfl, m, hm, shav, hsha, sha, rfl,
      sizev, hsz, sz, ⟨n, rfl, h0, h64, hn⟩, hf⟩, hit⟩ |
    ⟨rfl, d, ⟨pv, hp, s, rfl, uv, hu, u, rfl, m, hm, hd⟩, hit⟩
  · subst hn hf hit
    exact ⟨false, s, u, m, hdv, hp, hu, hm, rfl,
      fun _ => ⟨sha, n, hsha, hsz, h0, h64, rfl⟩, fun h2 => Bool.noConfusion h2⟩
  · subst hd hit
    exact ⟨true, s, u, m, hdv, hp, hu, hm, rfl, fun h2 => Bool.noConfusion h2, fun _ => rfl⟩

/-- C5, counterexample: a File-variant record with `sha1_hash` (and
`size`) missing does not return `ListParseError` when its well-typed
`updated_at` string fails date parsing — the parser panics first. -/
theorem from_json_missing_field_panic_cex :
    SiteItem.from_json (fun _ => none)
        (JValue.obj [("is_directory", JValue.bool false), ("path", JValue.str "a"),
          ("updated_at", JValue.str "x")]) = .panicked ∧
    SiteItem.from_json (fun _ => none)
        (JValue.obj [("is_directory", JValue.bool false), ("path", JValue.str "a"),
          ("updated_at", JValue.str "x")]) ≠ .err NeocitiesError.ListParseError :=
  ⟨rfl, fun h => nomatch h⟩

/-- C5, amended: a successful parse implies every required field was
present with the right type (so a record with a missing or ill-typed
required field never yields an entry, and nothing is defaulted); every
returned error is `ListParseError`; and the only way the parser fails
without returning `ListParseError` is the date panic: `is_directory` and
`path` well-typed, `updated_at` a string the date parser rejects. -/
theorem from_json_missing_field_amended (p2822 : String → Option Int) (j : JValue) :
    (∀ it, SiteItem.from_json p2822 j = .ok it →
      (∃ b, j.get "is_directory" = some (.bool b)) ∧
      (∃ s, j.get "path" = some (.str s)) ∧
      (∃ u m, j.get "updated_at" = some (.str u) ∧ p2822 u = some m) ∧
      (j.get "is_directory" = some (.bool false) →
        (∃ sha, j.get "sha1_hash" = some (.str sha)) ∧
        (∃ n : Int, j.get "size" = some (.num n) ∧ 0 ≤ n ∧ n < 2 ^ 64))) ∧
    (SiteItem.from_json p2822 j = .panicked →
      ∃ b s u, j.get "is_directory" = some (.bool b) ∧ j.get "path" = some (.str s) ∧
        j.get "updated_at" = some (.str u) ∧ p2822 u = none) ∧
    (∀ e, SiteItem.from_json p2822 j = .err e → e = .ListParseError) := by
  refine ⟨fun it h => ?_, from_json_panicked_fields p2822 j, fun e h => from_json_err_eq p2822 j e h⟩
  obtain ⟨b, s, u, m, hdv, hp, hu, hm, _, hFile, _⟩ := from_json_ok_fields p2822 j it h
  refine ⟨⟨b, hdv⟩, ⟨s, hp⟩, ⟨u, m, hu, hm⟩, fun hfalse => ?_⟩
  rw [hdv] at hfalse
  have hb : b = false := by simpa using hfalse
  obtain ⟨sha, n, hsha, hsize, h0, h64, _⟩ := hFile hb
  exact ⟨⟨sha, hsha⟩, ⟨n, hsize, h0, h64⟩⟩

/-- Witness for the amended C5: a record with every field missing
returns `ListParseError`. -/
theorem from_json_missing_field_amended_witness :
    SiteItem.from_json (fun _ => none) (JValue.obj []) = .err NeocitiesError.ListParseError ∧
    NeocitiesError.ListParseError = NeocitiesError.ListParseError :=
  ⟨rfl, (from_json_missing_field_amended (fun _ => none) (JValue.obj [])).2.2
    NeocitiesError.ListParseError rfl⟩

end Neoercities

namespace Neoercities

/-- If every element of the `files` array parses, the loop of `refresh`
produces the list of parsed entries, in order. -/
lemma parse_entries_all_ok (p2822 : String → Option Int) (l : List JValue)
    (h : ∀ j ∈ l, ∃ it, SiteItem.from_json p2822 j = .ok it) :
    ∃ its, parse_entries p2822 l = .ok its ∧ its.length = l.length ∧
      ∀ i (hi : i < l.length) (hi2 : i < its.length),
        SiteItem.from_json p2822 (l.get ⟨i, hi⟩) = .ok (its.get ⟨i, hi2⟩) := by
  induction l with
  | nil => exact ⟨[], rfl, rfl, fun i hi _ => absurd hi (Nat.not_lt_zero i)⟩
  | cons j rest ih =>
    obtain ⟨it, hit⟩ := h j (List.mem_cons_self j rest)
    obtain ⟨its, hits, hlen, hpt⟩ := ih (fun x hx => h x (List.mem_cons_of_mem _ hx))
    refine ⟨it :: its, ?_, by simp [hlen], fun i hi hi2 => ?_⟩
    · unfold parse_entries
      simp [hit, hits, Outcome.bind]
    · cases i with
      | zero => exact hit
      | succ k => exact hpt k (Nat.lt_of_succ_lt_succ hi) (Nat.lt_of_succ_lt_succ hi2)

/-- The loop of `refresh` fails fast: if the elements before index `k`
parse and the element at `k` gives an error, the loop result is exactly
that first error. -/
lemma parse_entries_prefix_err (p2822 : String → Option Int) (l : List JValue) :
    ∀ (k : Nat) (hk : k < l.length) (e : NeocitiesError),
      SiteItem.from_json p2822 (l.get ⟨k, hk⟩) = .err e →
      (∀ j ∈ l.take k, ∃ it, SiteItem.from_json p2822 j = .ok it) →
      parse_entries p2822 l = .err e := by
  induction l with
  | nil => intro k hk; exact absurd hk (Nat.not_lt_zero k)
  | cons j rest ih =>
    intro k hk e hke hpre
    cases k with
    | zero =>
      have hke2 : SiteItem.from_json p2822 j = .err e := hke
      unfold parse_entries
      simp [hke2, Outcome.bind]
    | succ k2 =>
      obtain ⟨it, hit⟩ := hpre j (by simp)
      have hrest := ih k2 (Nat.lt_of_succ_lt_succ hk) e hke
        (fun x hx => hpre x (by simp [hx]))
      unfold parse_entries
      simp [hit, hrest, Outcome.bind]

/-- C6: on a well-formed `files` array (every element parses), `refresh`
succeeds and installs one entry per array element in array order, each
entry's stored path being the element's raw `path` with `/` prepended;
and parsing fails fast: if the first malformed element sits at index `k`,
the call returns that element's error and leaves the items untouched. -/
theorem refresh_wellformed_load :
    (∀ (p2822 : String → Option Int) (items : List SiteItem) (v : JValue)
        (arr : List JValue),
      v.get "files" = some (.arr arr) →
      (∀ j ∈ arr, ∃ it, SiteItem.from_json p2822 j = .ok it) →
      ∃ newItems, refresh p2822 items (.ok (some v)) = (.ok, newItems) ∧
        newItems.length = arr.length ∧
        (∀ i (hi : i < arr.length) (hi2 : i < newItems.length),
          SiteItem.from_json p2822 (arr.get ⟨i, hi⟩) = .ok (newItems.get ⟨i, hi2⟩)) ∧
        (∀ i (hi : i < arr.length) (hi2 : i < newItems.length) (s : String),
          (arr.get ⟨i, hi⟩).get "path" = some (.str s) →
          (newItems.get ⟨i, hi2⟩).get_path = "/" ++ s)) ∧
    (∀ (p2822 : String → Option Int) (items : List SiteItem) (v : JValue)
        (arr : List JValue) (k : Nat) (hk : k < arr.length) (e : NeocitiesError),
      v.get "files" = some (.arr arr) →
      SiteItem.from_json p2822 (arr.get ⟨k, hk⟩) = .err e →
      (∀ j ∈ arr.take k, ∃ it, SiteItem.from_json p2822 j = .ok it) →
      refresh p2822 items (.ok (some v)) = (.err e, items)) := by
  constructor
  · intro p2822 items v arr hv hwf
    obtain ⟨its, hits, hlen, hpt⟩ := parse_entries_all_ok p2822 arr hwf
    refine ⟨its, ?_, hlen, hpt, ?_⟩
    · unfold refresh
      simp [hv, JValue.as_array, hits]
    · intro i hi hi2 s hs
      obtain ⟨b, s2, u, m, hdv, hp, hu, hm, hpath, hFile, hDir⟩ :=
        from_json_ok_fields p2822 _ _ (hpt i hi hi2)
      rw [hp] at hs
      have : s2 = s := by simpa using hs
      rw [← this]
      exact hpath
  · intro p2822 items v arr k hk e hv hke hpre
    have hpe := parse_entries_prefix_err p2822 arr k hk e hke hpre
    unfold refresh
    simp [hv, JValue.as_array, hpe]

/-- Witness for C6 (fail-fast part) at a concrete one-element array whose
only record is malformed. -/
theorem refresh_wellformed_load_witness :
    refresh (fun _ => some 0) []
        (.ok (some (JValue.obj [("files", JValue.arr [JValue.obj []])]))) =
      (.err NeocitiesError.ListParseError, []) :=
  refresh_wellformed_load.2 (fun _ => some 0) [] _ [JValue.obj []] 0 (by decide)
    NeocitiesError.ListParseError rfl rfl (by simp)

/-- C7: `get_item` is the in-order linear scan returning the first entry
whose path equals `p` exactly (`List.find?` with exact string equality),
`none` when nothing matches; `get_file`/`get_dir` return that same entry
exactly when it is the matching variant, and `none` — not an error —
when the path is absent or the entry is the other variant. -/
theorem get_item_find_spec (items : List SiteItem) (p : String) :
    get_item items p = items.find? (fun i => i.get_path == p) ∧
    (∀ f, get_file items p = some f ↔ get_item items p = some (SiteItem.File f)) ∧
    (∀ d, get_dir items p = some d ↔ get_item items p = some (SiteItem.Dir d)) := by
  refine ⟨?_, fun f => ?_, fun d => ?_⟩
  · induction items with
    | nil => rfl
    | cons i rest ih =>
      by_cases h : i.get_path = p
      · simp [get_item, List.find?, h]
      · have hb : (i.get_path == p) = false := by simp [h]
        simp [get_item, List.find?, h, hb, ih]
  · rcases hg : get_item items p with _ | it
    · simp [get_file, hg]
    · cases it <;> simp [get_file, hg]
  · rcases hg : get_item items p with _ | it
    · simp [get_dir, hg]
    · cases it <;> simp [get_dir, hg]

end Neoercities

namespace Neoercities

/-- `String.append` concatenates the character lists. -/
lemma str_data_append (a b : String) : (a ++ b).data = a.data ++ b.data := rfl

/-- The two characters a byte is rendered to. -/
lemma toHex2_data (b : Nat) : (toHex2 b).data = [hexDigit (b / 16), hexDigit (b % 16)] := rfl

/-- A SHA-1 digest has exactly 20 bytes. -/
lemma digestOf_length (st : Sha1State) : (digestOf st).length = 20 := by
  obtain ⟨a, b, c, d, e⟩ := st
  rfl

/-- Big-endian word bytes are bytes. -/
lemma be32_lt (w : Nat) : ∀ x ∈ be32 w, x < 256 := by
  intro x hx
  simp [be32] at hx
  rcases hx with rfl | rfl | rfl | rfl <;> omega

/-- Every digest byte is below 256. -/
lemma digestOf_lt (st : Sha1State) : ∀ b ∈ digestOf st, b < 256 := by
  obtain ⟨a, b, c, d, e⟩ := st
  intro x hx
  simp only [digestOf, List.mem_append] at hx
  rcases hx with (((h | h) | h) | h) | h <;> exact be32_lt _ x h

/-- Hex digits of values below 16 are lowercase hex characters. -/
lemma hexDigit_mem (m : Nat) (h : m < 16) : hexDigit m ∈ "0123456789abcdef".data := by
  interval_cases m <;> decide

/-- The characters produced by the hex-rendering loop. -/
lemma foldl_hex_data (l : List Nat) : ∀ (acc : String),
    (l.foldl (fun ret b => ret ++ toHex2 b) acc).data =
      acc.data ++ (l.map fun b => (toHex2 b).data).join := by
  induction l with
  | nil => intro acc; simp
  | cons b rest ih =>
    intro acc
    simp only [List.foldl_cons, List.map_cons, List.join]
    rw [ih, str_data_append]
    simp [List.append_assoc]

/-- The hex-rendering loop adds two characters per byte. -/
lemma foldl_hex_length (l : List Nat) (acc : String) :
    (l.foldl (fun ret b => ret ++ toHex2 b) acc).length = acc.length + 2 * l.length := by
  induction l generalizing acc with
  | nil => simp
  | cons b rest ih =>
    simp only [List.foldl_cons, List.length_cons]
    rw [ih]
    have h2 : (acc ++ toHex2 b).length = acc.length + 2 := by
      show (acc ++ toHex2 b).data.length = acc.data.length + 2
      rw [str_data_append, toHex2_data]
      simp
    rw [h2]
    omega

set_option maxRecDepth 10000 in
/-- The SHA-1 hash of the empty byte sequence, computed by the kernel. -/
lemma hash_of_bytes_nil : hash_of_bytes [] = "da39a3ee5e6b4b0d3255bfef95601890afd80709" := by
  rfl

/-- The characters of the hash string: two hex digits per digest byte. -/
lemma hash_data (B : List Nat) :
    (hash_of_bytes B).data = ((sha1digest B).map fun b => (toHex2 b).data).join := by
  have h0 : ("" : String).data = ([] : List Char) := rfl
  rw [hash_of_bytes, foldl_hex_data, h0, List.nil_append]

/-- C9: `hash_of_bytes` is a total function (so two calls on identical
bytes give the identical string — determinism is definitional in this
embedding, and the `String` result type shows there is no error path);
for every byte sequence the result is a 40-character string of lowercase
hexadecimal characters, two zero-padded digits per byte of the 20-byte
(160-bit) digest; and the hash of the empty sequence is the canonical
`da39a3ee5e6b4b0d3255bfef95601890afd80709`. -/
theorem hash_of_bytes_spec :
    (∀ B : List Nat, (hash_of_bytes B).length = 40 ∧
      (hash_of_bytes B).data.all (fun c => "0123456789abcdef".data.contains c) = true ∧
      hash_of_bytes B = String.join ((sha1digest B).map toHex2) ∧
      (sha1digest B).length = 20) ∧
    hash_of_bytes [] = "da39a3ee5e6b4b0d3255bfef95601890afd80709" := by
  have hlen20 : ∀ B : List Nat, (sha1digest B).length = 20 := fun B => digestOf_length _
  refine ⟨fun B => ⟨?_, ?_, ?_, hlen20 B⟩, hash_of_bytes_nil⟩
  · rw [hash_of_bytes, foldl_hex_length, hlen20 B]
    rfl
  · rw [List.all_eq_true]
    intro c hc
    rw [hash_data] at hc
    simp only [List.mem_join, List.mem_map] at hc
    obtain ⟨sub, ⟨b, hb, rfl⟩, hcb⟩ := hc
    have hb256 : b < 256 := digestOf_lt _ b hb
    rw [toHex2_data] at hcb
    simp only [List.mem_cons, List.mem_singleton] at hcb
    have hmem : c ∈ "0123456789abcdef".data := by
      rcases hcb with rfl | rfl | h
      · exact hexDigit_mem _ (by omega)
      · exact hexDigit_mem _ (by omega)
      · exact absurd h (List.not_mem_nil c)
    simpa using hmem
  · rw [hash_of_bytes, String.join, List.foldl_map]

/-- C10: the hash comparison of `bytes_changed` is exact case-sensitive
string equality: a stored `sha1_hash` that denotes the same digest as
`hash_of_bytes B` but in different letter case (equal after lowercasing
both, yet not equal as strings) is reported as changed. -/
theorem bytes_changed_case_sensitive (items : List SiteItem) (B : List Nat)
    (p : String) (f : File)
    (hf : get_item items p = some (.File f))
    (hcase : f.sha1_hash.data.map Char.toLower = (hash_of_bytes B).data.map Char.toLower)
    (hne : f.sha1_hash ≠ hash_of_bytes B) :
    bytes_changed items B p = true := by
  simp [bytes_changed, get_file, hf, bne_iff_ne]
  exact Ne.symm hne

/-- Witness for C10: the uppercase form of the empty-sequence hash,
stored as the remote hash, is reported as changed against the empty
byte sequence. -/
theorem bytes_changed_case_sensitive_witness :
    bytes_changed
      [SiteItem.File { path := "/e", modified := 0, sha1_hash := "DA39A3EE5E6B4B0D3255BFEF95601890AFD80709", size := 0 }]
      [] "/e" = true :=
  bytes_changed_case_sensitive _ [] "/e"
    { path := "/e", modified := 0, sha1_hash := "DA39A3EE5E6B4B0D3255BFEF95601890AFD80709", size := 0 }
    rfl (by rw [hash_of_bytes_nil]; decide) (by rw [hash_of_bytes_nil]; decide)

end Neoercities
